import Mathlib

/-!
# SkyFarm AI service — verification of the numeric core

A shallow embedding, over exact rationals, of the numeric pipeline of the
SkyFarm AI microservice (`spectral.py`, `inference.py`, `main.py`):
spectral-index computation, feature-stack assembly, per-pixel stress
inference, and the analytics helpers (alert level, distribution, forecast).

Modelling conventions:
* numpy 2-D `float32`/`float64` arrays of a statically known shape `(h, w)`
  are functions `Fin h → Fin w → ℚ`; flattened arrays are `Fin (h*w) → ℚ`
  in row-major (C) order, exactly numpy's memory order;
* float arithmetic is modelled by exact rational arithmetic; decimal
  literals (`1e-10`, `0.3`, …) denote the exact rationals they name;
* `np.nanstd` computes a square root, which is irrational in general.
  Functions that divide by it (`compute_zscore_anomaly`) take the standard
  deviation `σ` as an explicit parameter; theorems that depend on its value
  constrain it by `0 ≤ σ` and `σ^2 = variance`, the defining equations of
  the real square root of the population variance;
* Python's `round(x, n)` (round-half-to-even on the decimal value) is
  modelled by `roundTo`;
* the classifier artifact (`model.predict_proba`) is opaque in the source;
  it is passed as a function parameter and quantified over in theorems;
* `random.gauss` draws in `generate_forecast` are passed as an explicit
  list of deltas, one per day.

For dynamically-typed behaviour (missing dictionary keys, numpy shape
broadcasting) a second, dynamic model of `spectral.build_feature_stack`
over `List (List ℚ)` arrays lives in namespace `PyDyn`.
-/

/-! ## Scalar helpers -/

/-- `np.clip(x, lo, hi)`: elementwise `min(max(x, lo), hi)`. -/
def clip (x lo hi : ℚ) : ℚ := min (max x lo) hi

/-- Scalar core of `spectral._safe_divide`
(`np.where(np.abs(denominator) > 1e-10, numerator / denominator, 0.0)`). -/
def safe_div_val (n d : ℚ) : ℚ := if 1e-10 < |d| then n / d else 0

/-- Round a rational to the nearest integer, ties to even — the rounding of
Python's builtin `round`. -/
def roundHalfEven (q : ℚ) : ℤ :=
  if q - ⌊q⌋ < 1/2 then ⌊q⌋
  else if 1/2 < q - ⌊q⌋ then ⌊q⌋ + 1
  else if ⌊q⌋ % 2 = 0 then ⌊q⌋ else ⌊q⌋ + 1

/-- Python's `round(x, n)`: round to `n` decimal digits, ties to even. -/
def roundTo (n : ℕ) (q : ℚ) : ℚ :=
  (roundHalfEven (q * (10 : ℚ) ^ n) : ℚ) / (10 : ℚ) ^ n

/-! ## Matrices: numpy 2-D arrays of static shape, row-major flattening -/

/-- A 2-D `float` array of shape `(h, w)`. -/
abbrev Mat (h w : ℕ) := Fin h → Fin w → ℚ

/-- `np.ravel` / `np.ndarray.flatten`: row-major flattening of a `(h, w)`
array into a vector of length `h*w`; entry `p` is the pixel
`(p / w, p % w)`. -/
def ravel {h w : ℕ} (m : Mat h w) (p : Fin (h * w)) : ℚ :=
  have hw : 0 < w := by
    rcases Nat.eq_zero_or_pos w with h0 | h0
    · exact absurd p.isLt (by simp [h0])
    · exact h0
  m ⟨p.val / w, by
      have hlt := p.isLt
      exact Nat.div_lt_of_lt_mul (Nat.mul_comm h w ▸ hlt)⟩
    ⟨p.val % w, Nat.mod_lt _ hw⟩

/-- `np.reshape` of a flat length-`h*w` vector back to shape `(h, w)`:
pixel `(i, j)` is entry `i*w + j` of the flat vector (row-major). -/
def reshape {h w : ℕ} (v : Fin (h * w) → ℚ) : Mat h w :=
  fun i j => v ⟨i.val * w + j.val, by
    calc i.val * w + j.val < i.val * w + w := by omega
      _ = (i.val + 1) * w := by ring
      _ ≤ h * w := Nat.mul_le_mul_right w i.isLt⟩

/-! ## `inference.py` analytics helpers -/

/-- `inference.compute_alert_level`: `< 30 → SAFE`, `≤ 60 → MONITOR`,
otherwise `CRITICAL`. -/
def compute_alert_level (stress_pct : ℚ) : String :=
  if stress_pct < 30 then "SAFE"
  else if stress_pct ≤ 60 then "MONITOR"
  else "CRITICAL"

/-- `main.classify_alert`: `< 30 → SAFE`, `< 60 → MONITOR`,
otherwise `CRITICAL`. -/
def classify_alert (stress_pct : ℚ) : String :=
  if stress_pct < 30 then "SAFE"
  else if stress_pct < 60 then "MONITOR"
  else "CRITICAL"

/-- The percentage breakdown returned by `inference.compute_distribution`. -/
structure Distribution where
  healthy : ℚ
  moderate : ℚ
  critical : ℚ
deriving DecidableEq

/-- `inference.compute_distribution`: bucket the flattened stress map into
healthy (`< 0.3`), moderate (`0.3 ≤ · < 0.6`), critical (`≥ 0.6`), and
return each bucket's share of the pixel count as a percentage rounded to
2 decimals; an empty map short-circuits to all zeros. -/
def compute_distribution {h w : ℕ} (stress_map : Mat h w) : Distribution :=
  if h * w = 0 then ⟨0, 0, 0⟩
  else
    ⟨roundTo 2 (((Finset.univ.filter fun p : Fin (h * w) =>
        ravel stress_map p < 0.3).card : ℚ) / (h * w) * 100),
     roundTo 2 (((Finset.univ.filter fun p : Fin (h * w) =>
        0.3 ≤ ravel stress_map p ∧ ravel stress_map p < 0.6).card : ℚ) / (h * w) * 100),
     roundTo 2 (((Finset.univ.filter fun p : Fin (h * w) =>
        0.6 ≤ ravel stress_map p).card : ℚ) / (h * w) * 100)⟩

/-- One entry of `inference.generate_forecast`'s result:
`{"day": …, "stress": …, "level": …}`. -/
structure ForecastEntry where
  day : ℕ
  stress : ℚ
  level : String
deriving DecidableEq

/-- The loop body of `inference.generate_forecast`: starting from `current`
and day number `day`, consume one Gaussian draw per day, clip the running
value to `[0, 100]`, and emit `{"day": day, "stress": round(current, 1),
"level": compute_alert_level(current)}`. -/
def generate_forecast_from (current : ℚ) (day : ℕ) : List ℚ → List ForecastEntry
  | [] => []
  | delta :: ds =>
      ⟨day, roundTo 1 (clip (current + delta) 0 100),
       compute_alert_level (clip (current + delta) 0 100)⟩ ::
        generate_forecast_from (clip (current + delta) 0 100) (day + 1) ds

/-- `inference.generate_forecast`: 7-day random-walk forecast; the source
draws `delta = random.gauss(0.8, 3.5)` once per day — here the draws are the
explicit list `deltas` (length 7 in the source's `range(1, 8)` loop). -/
def generate_forecast (stress_pct : ℚ) (deltas : List ℚ) : List ForecastEntry :=
  generate_forecast_from stress_pct 1 deltas

/-- The running clipped values of the forecast random walk: entry `k` is the
(pre-rounding) stress value of forecast day `k+1`. -/
def forecast_currents (current : ℚ) : List ℚ → List ℚ
  | [] => []
  | delta :: ds =>
      clip (current + delta) 0 100 :: forecast_currents (clip (current + delta) 0 100) ds

/-! ## `spectral.py` — index functions and the feature stack (static shapes) -/

/-- `spectral._safe_divide`, elementwise on same-shape arrays (the
`.astype(np.float32)` cast is the identity over ℚ). -/
def _safe_divide {h w : ℕ} (numerator denominator : Mat h w) : Mat h w :=
  fun i j => safe_div_val (numerator i j) (denominator i j)

/-- `spectral.compute_ndvi`: `(nir - red) / (nir + red)` with safe divide. -/
def compute_ndvi {h w : ℕ} (nir red : Mat h w) : Mat h w :=
  _safe_divide (fun i j => nir i j - red i j) (fun i j => nir i j + red i j)

/-- `spectral.compute_ndre`: `(nir - red_edge) / (nir + red_edge)` with safe
divide. -/
def compute_ndre {h w : ℕ} (nir red_edge : Mat h w) : Mat h w :=
  _safe_divide (fun i j => nir i j - red_edge i j) (fun i j => nir i j + red_edge i j)

/-- `spectral.compute_msi`: `swir / nir` with safe divide. -/
def compute_msi {h w : ℕ} (swir nir : Mat h w) : Mat h w :=
  _safe_divide swir nir

/-- `np.nanmean` of the flattened array (no NaN exists over ℚ, so this is
the plain population mean `sum / count`). -/
def nanmean {h w : ℕ} (m : Mat h w) : ℚ :=
  (∑ p : Fin (h * w), ravel m p) / (h * w)

/-- The population variance of the flattened array — the square of the
`np.nanstd` computed by `spectral.compute_zscore_anomaly`. -/
def nanvariance {h w : ℕ} (m : Mat h w) : ℚ :=
  (∑ p : Fin (h * w), (ravel m p - nanmean m) ^ 2) / (h * w)

/-- `spectral.compute_zscore_anomaly`. The source computes
`sigma = float(np.nanstd(flat))`, a square root that is irrational in
general, so `σ` is passed explicitly; theorems that use its value
constrain it by `0 ≤ σ` and `σ^2 = nanvariance m`, the equations defining
the square root of the population variance. Returns all zeros when
`σ < 1e-9`, otherwise `|x - μ| / σ` elementwise. -/
def compute_zscore_anomaly {h w : ℕ} (σ : ℚ) (index_map : Mat h w) : Mat h w :=
  if σ < 1e-9 then fun _ _ => 0
  else fun i j => |index_map i j - nanmean index_map| / σ

/-- A valid six-band input of `spectral.build_feature_stack`: all six keys
present, all arrays of the same shape `(h, w)`. -/
structure Bands (h w : ℕ) where
  blue : Mat h w
  green : Mat h w
  red : Mat h w
  red_edge : Mat h w
  nir : Mat h w
  swir : Mat h w

/-- The `index_maps` dictionary returned by `spectral.build_feature_stack`:
exactly the four keys `ndvi`, `ndre`, `msi`, `zscore_ndvi`. -/
structure IndexMaps (h w : ℕ) where
  ndvi : Mat h w
  ndre : Mat h w
  msi : Mat h w
  zscore_ndvi : Mat h w

/-- `spectral.build_feature_stack` on a valid six-band input (the static
happy path; dynamic behaviour on invalid inputs is modelled in `PyDyn`).
`σ` is the standard deviation of the ndvi map used inside
`compute_zscore_anomaly` (see there). Returns the `(h*w, 6)` feature
matrix (`np.stack([...], axis=1)` of the six raveled maps), the shape
`(h, w)`, and the four index maps. -/
def build_feature_stack {h w : ℕ} (σ : ℚ) (bands : Bands h w) :
    (Fin (h * w) → Fin 6 → ℚ) × (ℕ × ℕ) × IndexMaps h w :=
  let nir := bands.nir
  let red := bands.red
  let red_edge := bands.red_edge
  let swir := bands.swir
  let ndvi := compute_ndvi nir red
  let ndre := compute_ndre nir red_edge
  let msi := compute_msi swir nir
  let zscore_ndvi := compute_zscore_anomaly σ ndvi
  (fun p => ![ravel ndvi p, ravel ndre p, ravel msi p,
              ravel zscore_ndvi p, ravel nir p, ravel swir p],
   (h, w),
   ⟨ndvi, ndre, msi, zscore_ndvi⟩)

/-! ## `inference.py` — per-pixel stress inference -/

/-- The aggregation step of `inference.predict_stress` (lines 64–68):
column 1 of the probability matrix when the classifier has exactly two
classes, otherwise the row-sum of the slice `proba[:, 1:]`. -/
def stress_prob_of {n c : ℕ} (hc : 2 ≤ c) (proba : Fin n → Fin c → ℚ) :
    Fin n → ℚ :=
  if c = 2 then fun p => proba p ⟨1, by omega⟩
  else fun p => ∑ k : Fin (c - 1), proba p ⟨k.val + 1, by omega⟩

/-- `inference.predict_stress`: run the loaded classifier's `predict_proba`
on the feature matrix, aggregate the per-pixel stress probability, clip it
to `[0, 1]`, and reshape to `(h, w)`. The model artifact is opaque in the
source (loaded from disk), so its `predict_proba` is a function parameter
with `c ≥ 2` classes, quantified over in the theorems. -/
def predict_stress {h w c : ℕ} (hc : 2 ≤ c)
    (predict_proba : (Fin (h * w) → Fin 6 → ℚ) → Fin (h * w) → Fin c → ℚ)
    (features : Fin (h * w) → Fin 6 → ℚ) : Mat h w :=
  reshape (fun p => clip (stress_prob_of hc (predict_proba features) p) 0 1)

/-! ## `main.py` — stress map with heuristic fallback -/

/-- The artifact pair loaded at startup by `main.py` (`model`, `scaler`),
opaque in the source: the scaler's `transform` and the classifier's
`predict_proba` over `nclasses ≥ 2` classes. -/
structure LoadedModel (n : ℕ) where
  nclasses : ℕ
  two_le : 2 ≤ nclasses
  transform : (Fin n → Fin 8 → ℚ) → Fin n → Fin 8 → ℚ
  predict_proba : (Fin n → Fin 8 → ℚ) → Fin n → Fin nclasses → ℚ

/-- `main.predict_stress_map`: stack the 8 feature columns
`[NDVI, NDRE, MSI, z_score, NIR, Red, RedEdge, SWIR]`; with a loaded model
return `model.predict_proba(scaler.transform(features))[:, 1]`, otherwise
the heuristic fallback `np.clip(1 - NDVI.flatten(), 0, 1)`; reshape to
`(H, W)`. -/
def predict_stress_map {h w : ℕ}
    (NDVI NDRE MSI z_score NIR Red RedEdge SWIR : Mat h w)
    (model : Option (LoadedModel (h * w))) : Mat h w :=
  let features : Fin (h * w) → Fin 8 → ℚ := fun p =>
    ![ravel NDVI p, ravel NDRE p, ravel MSI p, ravel z_score p,
      ravel NIR p, ravel Red p, ravel RedEdge p, ravel SWIR p]
  match model with
  | some m => reshape (fun p =>
      m.predict_proba (m.transform features) p
        ⟨1, Nat.lt_of_lt_of_le Nat.one_lt_two m.two_le⟩)
  | none => reshape (fun p => clip (1 - ravel NDVI p) 0 1)

/-! ## `PyDyn` — `spectral.build_feature_stack` under dynamic semantics

The static model above fixes one shape `(h, w)` for all six bands, so it
cannot express what the Python code does on an *invalid* `bands` dict
(missing keys, differing shapes). This dynamic model represents arrays as
2-D lists and reproduces Python/numpy behaviour: dictionary lookups raise
`KeyError` on an absent key, elementwise ufuncs broadcast
compatible-but-different shapes and raise `ValueError` on incompatible
ones. -/

namespace PyDyn

/-- A numpy 2-D array as the dynamic code sees it: a list of rows
(row-major), shape read off the data. -/
structure Arr where
  rows : List (List ℚ)
deriving DecidableEq

/-- `ndarray.shape` of a 2-D array: (row count, length of the first row). -/
def Arr.shape (a : Arr) : ℕ × ℕ := (a.rows.length, (a.rows.headD []).length)

/-- Element access (0 out of bounds; in-bounds on every use below). -/
def Arr.get (a : Arr) (i j : ℕ) : ℚ := (a.rows.getD i []).getD j 0

/-- `ndarray.ravel()` / `.flatten()` — row-major. -/
def Arr.flat (a : Arr) : List ℚ := a.rows.flatten

/-- Python-level errors the numeric code can raise. -/
inductive PyErr where
  | keyError (key : String)
  | valueError (msg : String)
deriving DecidableEq

/-- numpy broadcasting of a single dimension: sizes equal, or one is 1. -/
def bdim (m n : ℕ) : Option ℕ :=
  if m = n then some m
  else if m = 1 then some n
  else if n = 1 then some m
  else none

/-- Index into a possibly-broadcast (size-1) dimension. -/
def bindex (size i : ℕ) : ℕ := if size = 1 then 0 else i

/-- An elementwise binary ufunc on two 2-D arrays with numpy shape
broadcasting; `ValueError` exactly when the shapes cannot be broadcast. -/
def binop (f : ℚ → ℚ → ℚ) (a b : Arr) : Except PyErr Arr :=
  match bdim a.shape.1 b.shape.1, bdim a.shape.2 b.shape.2 with
  | some hh, some ww =>
      .ok ⟨(List.range hh).map fun i =>
        (List.range ww).map fun j =>
          f (a.get (bindex a.shape.1 i) (bindex a.shape.2 j))
            (b.get (bindex b.shape.1 i) (bindex b.shape.2 j))⟩
  | _, _ => .error (.valueError "operands could not be broadcast together")

/-- `spectral._safe_divide` under dynamic semantics:
`np.where(np.abs(d) > 1e-10, n / d, 0.0)`, elementwise over the broadcast
pair. -/
def _safe_divide (numerator denominator : Arr) : Except PyErr Arr :=
  binop safe_div_val numerator denominator

/-- `spectral.compute_ndvi` under dynamic semantics. -/
def compute_ndvi (nir red : Arr) : Except PyErr Arr := do
  let num ← binop (· - ·) nir red
  let den ← binop (· + ·) nir red
  _safe_divide num den

/-- `spectral.compute_ndre` under dynamic semantics. -/
def compute_ndre (nir red_edge : Arr) : Except PyErr Arr := do
  let num ← binop (· - ·) nir red_edge
  let den ← binop (· + ·) nir red_edge
  _safe_divide num den

/-- `spectral.compute_msi` under dynamic semantics. -/
def compute_msi (swir nir : Arr) : Except PyErr Arr :=
  _safe_divide swir nir

/-- `np.nanmean` of the flattened array. -/
def nanmean (a : Arr) : ℚ := a.flat.sum / a.flat.length

/-- `np.zeros_like`. -/
def zeros_like (a : Arr) : Arr := ⟨a.rows.map fun r => r.map fun _ => 0⟩

/-- `spectral.compute_zscore_anomaly` under dynamic semantics; as in the
static model, the floating-point `np.nanstd` is the explicit parameter
`σ`. -/
def compute_zscore_anomaly (σ : ℚ) (index_map : Arr) : Arr :=
  if σ < 1e-9 then zeros_like index_map
  else ⟨index_map.rows.map fun r => r.map fun x => |x - nanmean index_map| / σ⟩

/-- The `bands` dictionary: which of the six documented keys are present.
(The source reads only `nir`, `red`, `red_edge` and `swir`.) -/
structure Bands where
  blue : Option Arr
  green : Option Arr
  red : Option Arr
  red_edge : Option Arr
  nir : Option Arr
  swir : Option Arr

/-- Python `bands[key]`: `KeyError` when the key is absent. -/
def getItem (entry : Option Arr) (key : String) : Except PyErr Arr :=
  match entry with
  | some a => .ok a
  | none => .error (.keyError key)

/-- `np.stack([c0, …, c5], axis=1)` of six flat arrays: all lengths must
agree, else `ValueError`. -/
def stack6 (c0 c1 c2 c3 c4 c5 : List ℚ) : Except PyErr (List (List ℚ)) :=
  if c1.length = c0.length ∧ c2.length = c0.length ∧ c3.length = c0.length ∧
      c4.length = c0.length ∧ c5.length = c0.length then
    .ok ((List.range c0.length).map fun p =>
      [c0.getD p 0, c1.getD p 0, c2.getD p 0, c3.getD p 0, c4.getD p 0, c5.getD p 0])
  else .error (.valueError "all input arrays must have the same shape")

/-- The `index_maps` dictionary under dynamic semantics. -/
structure IndexMaps where
  ndvi : Arr
  ndre : Arr
  msi : Arr
  zscore_ndvi : Arr
deriving DecidableEq

/-- `spectral.build_feature_stack` under Python's dynamic semantics, line
by line: look up `nir`, `red`, `red_edge`, `swir` (KeyError on an absent
one; `blue` and `green` are never read), compute the four index maps
(broadcasting shapes, ValueError if incompatible), read `(h, w)` off
`nir.shape`, and stack the six raveled columns. There is no validation
step. `σ` as in the static `build_feature_stack`. -/
def build_feature_stack (σ : ℚ) (bands : Bands) :
    Except PyErr (List (List ℚ) × (ℕ × ℕ) × IndexMaps) := do
  let nir ← getItem bands.nir "nir"
  let red ← getItem bands.red "red"
  let red_edge ← getItem bands.red_edge "red_edge"
  let swir ← getItem bands.swir "swir"
  let ndvi ← compute_ndvi nir red
  let ndre ← compute_ndre nir red_edge
  let msi ← compute_msi swir nir
  let zscore_ndvi := compute_zscore_anomaly σ ndvi
  let fa ← stack6 ndvi.flat ndre.flat msi.flat zscore_ndvi.flat nir.flat swir.flat
  pure (fa, nir.shape, ⟨ndvi, ndre, msi, zscore_ndvi⟩)

end PyDyn

/-! # Theorems -/

/-! ## Rounding helper lemmas -/

theorem roundHalfEven_le (q : ℚ) : (roundHalfEven q : ℚ) ≤ q + 1/2 := by
  unfold roundHalfEven
  have hf : (⌊q⌋ : ℚ) ≤ q := Int.floor_le q
  split_ifs with h1 h2 h3 <;> push_cast <;> linarith

theorem le_roundHalfEven (q : ℚ) : q - 1/2 ≤ (roundHalfEven q : ℚ) := by
  unfold roundHalfEven
  have hf : q - 1 < (⌊q⌋ : ℚ) := by
    have := Int.sub_one_lt_floor q
    push_cast at this ⊢
    linarith
  split_ifs with h1 h2 h3 <;> push_cast <;> linarith

theorem roundHalfEven_nonneg {q : ℚ} (h : 0 ≤ q) : 0 ≤ roundHalfEven q := by
  unfold roundHalfEven
  have hf : (0 : ℤ) ≤ ⌊q⌋ := Int.floor_nonneg.mpr h
  split_ifs <;> omega

theorem roundHalfEven_le_int {q : ℚ} {B : ℤ} (h : q ≤ B) : roundHalfEven q ≤ B := by
  have h1 : (roundHalfEven q : ℚ) ≤ (B : ℚ) + 1/2 := by
    have := roundHalfEven_le q
    linarith
  have h2 : (roundHalfEven q : ℚ) < (B : ℚ) + 1 := by linarith
  exact_mod_cast Int.lt_add_one_iff.mp (by exact_mod_cast h2)

theorem roundHalfEven_intCast (n : ℤ) : roundHalfEven (n : ℚ) = n := by
  unfold roundHalfEven
  rw [Int.floor_intCast]
  simp

/-- `roundTo n` keeps a value inside `[0, 100]`. -/
theorem roundTo_mem_Icc {q : ℚ} (h0 : 0 ≤ q) (h100 : q ≤ 100) (n : ℕ) :
    0 ≤ roundTo n q ∧ roundTo n q ≤ 100 := by
  have hpow : (0 : ℚ) < (10 : ℚ) ^ n := by positivity
  constructor
  · have := roundHalfEven_nonneg (q := q * (10 : ℚ) ^ n) (by positivity)
    unfold roundTo
    have : (0 : ℚ) ≤ (roundHalfEven (q * (10 : ℚ) ^ n) : ℚ) := by exact_mod_cast this
    positivity
  · have hB : q * (10 : ℚ) ^ n ≤ ((100 * 10 ^ n : ℤ) : ℚ) := by
      push_cast
      nlinarith
    have := roundHalfEven_le_int hB
    unfold roundTo
    rw [div_le_iff₀ hpow]
    calc (roundHalfEven (q * (10 : ℚ) ^ n) : ℚ)
        ≤ ((100 * 10 ^ n : ℤ) : ℚ) := by exact_mod_cast this
      _ = 100 * (10 : ℚ) ^ n := by push_cast; ring

/-! ## C4 — alert-level thresholds (`inference.compute_alert_level`) -/

/-- **C4.** `compute_alert_level` returns SAFE exactly when `x < 30`,
MONITOR exactly when `30 ≤ x ≤ 60`, CRITICAL exactly when `x > 60`
(so exactly one level is returned for every input), and in particular
`compute_alert_level 29.99 = SAFE` and `compute_alert_level 60.01 = CRITICAL`. -/
theorem alert_level_partition :
    (∀ x : ℚ, (compute_alert_level x = "SAFE" ↔ x < 30) ∧
      (compute_alert_level x = "MONITOR" ↔ 30 ≤ x ∧ x ≤ 60) ∧
      (compute_alert_level x = "CRITICAL" ↔ 60 < x)) ∧
    compute_alert_level 29.99 = "SAFE" ∧
    compute_alert_level 60.01 = "CRITICAL" := by
  refine ⟨fun x => ?_, by norm_num [compute_alert_level], by norm_num [compute_alert_level]⟩
  unfold compute_alert_level
  split_ifs with h1 h2
  · exact ⟨⟨fun _ => h1, fun _ => rfl⟩,
      ⟨fun h => absurd h (by decide), fun h => absurd h1 (not_lt.mpr h.1)⟩,
      ⟨fun h => absurd h (by decide), fun h => absurd h1 (by linarith)⟩⟩
  · exact ⟨⟨fun h => absurd h (by decide), fun h => absurd h h1⟩,
      ⟨fun _ => ⟨le_of_not_lt h1, h2⟩, fun _ => rfl⟩,
      ⟨fun h => absurd h (by decide), fun h => absurd h2 (not_le.mpr h)⟩⟩
  · exact ⟨⟨fun h => absurd h (by decide), fun h => absurd h h1⟩,
      ⟨fun h => absurd h (by decide), fun h => absurd h.2 h2⟩,
      ⟨fun _ => not_le.mp h2, fun _ => rfl⟩⟩

/-! ## C10 — the two alert-level implementations -/

/-- **C10 counterexample.** The two alert-level implementations disagree at
the boundary `x = 60`: `inference.compute_alert_level 60 = MONITOR` while
`main.classify_alert 60 = CRITICAL`. -/
theorem alert_level_impls_differ_at_60 :
    compute_alert_level 60 = "MONITOR" ∧ classify_alert 60 = "CRITICAL" ∧
    compute_alert_level 60 ≠ classify_alert 60 := by decide

/-- **C10 (amended).** The two alert-level implementations agree at every
stress percentage except exactly `x = 60`, where `compute_alert_level`
returns MONITOR and `classify_alert` returns CRITICAL. -/
theorem alert_level_impls_agree_off_60 (x : ℚ) (hx : x ≠ 60) :
    compute_alert_level x = classify_alert x := by
  unfold compute_alert_level classify_alert
  rcases lt_trichotomy x 60 with h | h | h
  · split_ifs <;> first | rfl | (exfalso; linarith)
  · exact absurd h hx
  · split_ifs <;> first | rfl | (exfalso; linarith)

/-- Witness for C10 (amended) at `x = 45`. -/
theorem alert_level_impls_agree_off_60_witness :
    compute_alert_level 45 = classify_alert 45 :=
  alert_level_impls_agree_off_60 45 (by decide)

/-! ## Forecast helper lemmas -/

theorem generate_forecast_from_length (current : ℚ) (day : ℕ) (ds : List ℚ) :
    (generate_forecast_from current day ds).length = ds.length := by
  induction ds generalizing current day with
  | nil => rfl
  | cons d ds ih => simp [generate_forecast_from, ih]

theorem forecast_currents_length (current : ℚ) (ds : List ℚ) :
    (forecast_currents current ds).length = ds.length := by
  induction ds generalizing current with
  | nil => rfl
  | cons d ds ih => simp [forecast_currents, ih]

theorem forecast_currents_mem_Icc (current : ℚ) (ds : List ℚ) :
    ∀ q ∈ forecast_currents current ds, 0 ≤ q ∧ q ≤ 100 := by
  induction ds generalizing current with
  | nil => intro q hq; simp [forecast_currents] at hq
  | cons d ds ih =>
      intro q hq
      simp only [forecast_currents, List.mem_cons] at hq
      rcases hq with rfl | hq
      · exact ⟨le_min (le_max_right _ _) (by norm_num), min_le_right _ _⟩
      · exact ih _ q hq

theorem generate_forecast_from_getD (ds : List ℚ) :
    ∀ (current : ℚ) (day k : ℕ), k < ds.length →
      (generate_forecast_from current day ds).getD k ⟨0, 0, ""⟩ =
        ⟨day + k, roundTo 1 ((forecast_currents current ds).getD k 0),
         compute_alert_level ((forecast_currents current ds).getD k 0)⟩ := by
  induction ds with
  | nil => intro _ _ k hk; simp at hk
  | cons d ds ih =>
      intro current day k hk
      cases k with
      | zero => simp [generate_forecast_from, forecast_currents]
      | succ k =>
          simp only [generate_forecast_from, forecast_currents, List.getD_cons_succ]
          rw [ih _ _ k (by simpa using hk)]
          have : day + 1 + k = day + (k + 1) := by omega
          rw [this]

theorem forecast_currents_getD_mem_Icc (current : ℚ) (ds : List ℚ) {k : ℕ}
    (hk : k < ds.length) :
    0 ≤ (forecast_currents current ds).getD k 0 ∧
      (forecast_currents current ds).getD k 0 ≤ 100 := by
  have hlen : k < (forecast_currents current ds).length := by
    rw [forecast_currents_length]; exact hk
  rw [List.getD_eq_getElem _ _ hlen]
  exact forecast_currents_mem_Icc current ds _ (List.getElem_mem hlen)

/-! ## C5 — the 7-day forecast (`inference.generate_forecast`) -/

/-- **C5 counterexample.** Starting at stress 29 with a first Gaussian draw
of 0.97, the first forecast entry stores stress `round(29.97, 1) = 30.0`
with level `compute_alert_level(29.97) = "SAFE"`, yet
`compute_alert_level` applied to the entry's own (rounded) stress value
`30.0` gives `"MONITOR"`: an entry's level is not always `alert_level` of
that entry's stored stress value. -/
theorem generate_forecast_level_mismatch :
    ((generate_forecast 29 [0.97, 0, 0, 0, 0, 0, 0]).getD 0 ⟨0, 0, ""⟩).stress = 30 ∧
    ((generate_forecast 29 [0.97, 0, 0, 0, 0, 0, 0]).getD 0 ⟨0, 0, ""⟩).level = "SAFE" ∧
    compute_alert_level 30 = "MONITOR" := by
  have hclip : clip (29 + 0.97) 0 100 = 29.97 := by
    rw [clip, max_eq_left (by norm_num), min_eq_left (by norm_num)]
    norm_num
  have hfloor : ⌊(29.97 * 10 ^ 1 : ℚ)⌋ = 299 := by
    rw [Int.floor_eq_iff]
    norm_num
  refine ⟨?_, ?_, by norm_num [compute_alert_level]⟩
  · show roundTo 1 (clip (29 + 0.97) 0 100) = 30
    rw [hclip, roundTo, roundHalfEven, hfloor]
    norm_num
  · show compute_alert_level (clip (29 + 0.97) 0 100) = "SAFE"
    rw [hclip]
    norm_num [compute_alert_level]

/-- **C5 (amended).** For a length-7 list of Gaussian draws,
`generate_forecast` returns exactly 7 entries; entry `k` (0-based) has day
number `k+1` (so days are strictly increasing 1..7); every stored stress
value lies in `[0, 100]`; and entry `k`'s level is `compute_alert_level`
applied to the entry's **unrounded** running stress value, of which the
stored stress is the rounding to 1 decimal (the level can therefore differ
from `compute_alert_level` of the stored, rounded value). -/
theorem generate_forecast_spec (x : ℚ) (deltas : List ℚ)
    (h7 : deltas.length = 7) :
    (generate_forecast x deltas).length = 7 ∧
    (∀ k, k < 7 → ((generate_forecast x deltas).getD k ⟨0, 0, ""⟩).day = k + 1) ∧
    (∀ k, k < 7 →
      0 ≤ ((generate_forecast x deltas).getD k ⟨0, 0, ""⟩).stress ∧
      ((generate_forecast x deltas).getD k ⟨0, 0, ""⟩).stress ≤ 100) ∧
    (∀ k, k < 7 →
      ((generate_forecast x deltas).getD k ⟨0, 0, ""⟩).level
        = compute_alert_level ((forecast_currents x deltas).getD k 0) ∧
      ((generate_forecast x deltas).getD k ⟨0, 0, ""⟩).stress
        = roundTo 1 ((forecast_currents x deltas).getD k 0)) := by
  have hlen : (generate_forecast x deltas).length = 7 := by
    rw [generate_forecast, generate_forecast_from_length, h7]
  refine ⟨hlen, ?_, ?_, ?_⟩
  · intro k hk
    rw [generate_forecast, generate_forecast_from_getD deltas x 1 k (by omega)]
    show 1 + k = k + 1
    omega
  · intro k hk
    rw [generate_forecast, generate_forecast_from_getD deltas x 1 k (by omega)]
    have hmem := forecast_currents_getD_mem_Icc x deltas (k := k) (by omega)
    exact roundTo_mem_Icc hmem.1 hmem.2 1
  · intro k hk
    rw [generate_forecast, generate_forecast_from_getD deltas x 1 k (by omega)]
    exact ⟨rfl, rfl⟩

/-- Witness for C5 (amended): a concrete forecast from stress 50 with all
draws zero. -/
theorem generate_forecast_spec_witness :
    (generate_forecast 50 [0, 0, 0, 0, 0, 0, 0]).length = 7 ∧
    ((generate_forecast 50 [0, 0, 0, 0, 0, 0, 0]).getD 2 ⟨0, 0, ""⟩).day = 3 ∧
    ((generate_forecast 50 [0, 0, 0, 0, 0, 0, 0]).getD 2 ⟨0, 0, ""⟩).level
      = compute_alert_level ((forecast_currents 50 [0, 0, 0, 0, 0, 0, 0]).getD 2 0) :=
  ⟨(generate_forecast_spec 50 [0, 0, 0, 0, 0, 0, 0] rfl).1,
   (generate_forecast_spec 50 [0, 0, 0, 0, 0, 0, 0] rfl).2.1 2 (by decide),
   ((generate_forecast_spec 50 [0, 0, 0, 0, 0, 0, 0] rfl).2.2.2 2 (by decide)).1⟩

/-! ## Rounding of integer values -/

theorem roundTo_intCast (n : ℕ) (z : ℤ) : roundTo n (z : ℚ) = z := by
  unfold roundTo
  have h : ((z : ℚ) * (10 : ℚ) ^ n) = ((z * 10 ^ n : ℤ) : ℚ) := by push_cast; ring
  rw [h, roundHalfEven_intCast]
  push_cast
  rw [mul_div_assoc, div_self (by positivity), mul_one]

/-! ## C6 — health-category distribution (`inference.compute_distribution`) -/

/-- **C6.** `compute_distribution` partitions the pixels into three
disjoint, exhaustive buckets (healthy `< 0.3`, moderate `0.3 ≤ · < 0.6`,
critical `≥ 0.6`): the three bucket counts always sum to the pixel count;
an empty (zero-pixel) map returns `{healthy: 0, moderate: 0, critical: 0}`
(no division by zero is possible); and a nonempty map whose every pixel is
`0.15` returns `{healthy: 100.0, moderate: 0.0, critical: 0.0}`. -/
theorem compute_distribution_spec (h w : ℕ) (m : Mat h w) :
    ((Finset.univ.filter fun p : Fin (h * w) => ravel m p < 0.3).card
      + (Finset.univ.filter fun p : Fin (h * w) =>
          0.3 ≤ ravel m p ∧ ravel m p < 0.6).card
      + (Finset.univ.filter fun p : Fin (h * w) => 0.6 ≤ ravel m p).card
      = h * w) ∧
    (h * w = 0 → compute_distribution m = ⟨0, 0, 0⟩) ∧
    (0 < h * w → (∀ i j, m i j = 0.15) →
      compute_distribution m = ⟨100, 0, 0⟩) := by
  refine ⟨?_, ?_, ?_⟩
  · have hA := Finset.filter_card_add_filter_neg_card_eq_card
      (s := (Finset.univ : Finset (Fin (h * w))))
      (p := fun p => ravel m p < 0.3)
    have e1 : (Finset.univ.filter fun p : Fin (h * w) => ¬ ravel m p < 0.3)
        = Finset.univ.filter fun p => 0.3 ≤ ravel m p := by
      apply Finset.filter_congr
      intro p _
      simp [not_lt]
    have hB := Finset.filter_card_add_filter_neg_card_eq_card
      (s := Finset.univ.filter fun p : Fin (h * w) => 0.3 ≤ ravel m p)
      (p := fun p => ravel m p < 0.6)
    rw [Finset.filter_filter, Finset.filter_filter] at hB
    have e2 : (Finset.univ.filter fun p : Fin (h * w) =>
          0.3 ≤ ravel m p ∧ ¬ ravel m p < 0.6)
        = Finset.univ.filter fun p => 0.6 ≤ ravel m p := by
      apply Finset.filter_congr
      intro p _
      simp only [not_lt, eq_iff_iff]
      constructor
      · exact fun hp => hp.2
      · exact fun hp => ⟨by linarith, hp⟩
    rw [e1] at hA
    rw [e2] at hB
    have hcard : (Finset.univ : Finset (Fin (h * w))).card = h * w := by
      simp
    omega
  · intro h0
    rw [compute_distribution, if_pos h0]
  · intro hpos hconst
    have hflat : ∀ p : Fin (h * w), ravel m p = 0.15 := by
      intro p
      rw [ravel]
      exact hconst _ _
    have eA : (Finset.univ.filter fun p : Fin (h * w) => ravel m p < 0.3)
        = Finset.univ := by
      apply Finset.filter_true_of_mem
      intro p _
      rw [hflat p]
      norm_num
    have eB : (Finset.univ.filter fun p : Fin (h * w) =>
        0.3 ≤ ravel m p ∧ ravel m p < 0.6) = ∅ := by
      apply Finset.filter_false_of_mem
      intro p _
      rw [hflat p]
      norm_num
    have eC : (Finset.univ.filter fun p : Fin (h * w) => 0.6 ≤ ravel m p) = ∅ := by
      apply Finset.filter_false_of_mem
      intro p _
      rw [hflat p]
      norm_num
    have hhq : ((h : ℚ)) ≠ 0 := Nat.cast_ne_zero.mpr (by rintro rfl; simp at hpos)
    have hwq : ((w : ℚ)) ≠ 0 := Nat.cast_ne_zero.mpr (by rintro rfl; simp at hpos)
    rw [compute_distribution, if_neg (Nat.pos_iff_ne_zero.mp hpos), eA, eB, eC]
    simp only [Finset.card_univ, Fintype.card_fin, Finset.card_empty,
      Nat.cast_zero, zero_div, zero_mul]
    have e100 : ((h * w : ℕ) : ℚ) / (↑h * ↑w) * 100 = ((100 : ℤ) : ℚ) := by
      push_cast
      rw [div_self (mul_ne_zero hhq hwq)]
      norm_num
    have e0 : roundTo 2 (0 : ℚ) = 0 := by
      simpa using roundTo_intCast 2 0
    rw [e100, roundTo_intCast, e0]
    norm_num [Distribution.mk.injEq]

/-- Witness for C6 at a concrete 1×1 map whose only pixel is `0.15`, and a
concrete empty (0×0) map. -/
theorem compute_distribution_spec_witness :
    compute_distribution (fun _ _ => (0.15 : ℚ) : Mat 1 1) = ⟨100, 0, 0⟩ ∧
    compute_distribution (fun i _ => i.elim0 : Mat 0 0) = ⟨0, 0, 0⟩ :=
  ⟨(compute_distribution_spec 1 1 _).2.2 (by decide) (fun _ _ => rfl),
   (compute_distribution_spec 0 0 _).2.1 (by decide)⟩

/-! ## Index arithmetic: flatten/reshape round trips -/

theorem pixel_lt {h w : ℕ} (i : Fin h) (j : Fin w) : i.val * w + j.val < h * w :=
  calc i.val * w + j.val < i.val * w + w := by omega
    _ = (i.val + 1) * w := by ring
    _ ≤ h * w := Nat.mul_le_mul_right w i.isLt

theorem ravel_at {h w : ℕ} (m : Mat h w) (i : Fin h) (j : Fin w)
    (hp : i.val * w + j.val < h * w) :
    ravel m ⟨i.val * w + j.val, hp⟩ = m i j := by
  have hw : 0 < w := lt_of_le_of_lt (Nat.zero_le _) j.isLt
  have h1 : (i.val * w + j.val) / w = i.val := by
    rw [Nat.add_comm, Nat.add_mul_div_right _ _ hw, Nat.div_eq_of_lt j.isLt,
      Nat.zero_add]
  have h2 : (i.val * w + j.val) % w = j.val := by
    rw [Nat.add_comm, Nat.add_mul_mod_self_right, Nat.mod_eq_of_lt j.isLt]
  simp only [ravel]
  exact congr_arg₂ m (Fin.ext h1) (Fin.ext h2)

theorem ravel_reshape {h w : ℕ} (v : Fin (h * w) → ℚ) :
    ravel (reshape v) = v := by
  funext p
  have hw : 0 < w := by
    rcases Nat.eq_zero_or_pos w with h0 | h0
    · exact absurd p.isLt (by simp [h0])
    · exact h0
  simp only [ravel, reshape]
  congr 1
  apply Fin.ext
  show p.val / w * w + p.val % w = p.val
  rw [Nat.mul_comm]
  exact Nat.div_add_mod p.val w

theorem reshape_ravel {h w : ℕ} (m : Mat h w) :
    reshape (ravel m) = m := by
  funext i j
  exact ravel_at m i j (pixel_lt i j)

/-! ## Variance and mean of a constant map -/

theorem ravel_const {h w : ℕ} {m : Mat h w} {c : ℚ}
    (hconst : ∀ i j, m i j = c) (p : Fin (h * w)) : ravel m p = c := by
  simp only [ravel]
  exact hconst _ _

theorem nanvariance_const {h w : ℕ} {m : Mat h w} {c : ℚ}
    (hconst : ∀ i j, m i j = c) : nanvariance m = 0 := by
  rcases Nat.eq_zero_or_pos (h * w) with h0 | h0
  · have he : IsEmpty (Fin (h * w)) := by rw [h0]; infer_instance
    rw [nanvariance, Finset.univ_eq_empty, Finset.sum_empty, zero_div]
  · have hhq : ((h : ℚ)) ≠ 0 := Nat.cast_ne_zero.mpr (by rintro rfl; simp at h0)
    have hwq : ((w : ℚ)) ≠ 0 := Nat.cast_ne_zero.mpr (by rintro rfl; simp at h0)
    have hmean : nanmean m = c := by
      rw [nanmean, Finset.sum_congr rfl (fun p _ => ravel_const hconst p),
        Finset.sum_const, Finset.card_univ, Fintype.card_fin, nsmul_eq_mul]
      push_cast
      rw [mul_comm, mul_div_assoc, div_self (mul_ne_zero hhq hwq), mul_one]
    rw [nanvariance, Finset.sum_congr rfl
      (fun p _ => by rw [ravel_const hconst p, hmean, sub_self]),
      Finset.sum_const]
    simp

/-! ## C7 — totality of the safe divisions (`spectral.py`) -/

/-- **C7.** The index computations never divide by (near-)zero: a
`_safe_divide` pixel whose denominator has absolute value below `1e-10` is
exactly 0; consequently `compute_ndvi` is 0 everywhere whenever
`NIR == RED` pixelwise; and `compute_zscore_anomaly` returns the all-zero
map whenever the population standard deviation is below `1e-9`, in
particular on every constant-valued map. -/
theorem safe_divide_and_zscore_total :
    (∀ (h w : ℕ) (a b : Mat h w) (i : Fin h) (j : Fin w),
      |b i j| < 1e-10 → _safe_divide a b i j = 0) ∧
    (∀ (h w : ℕ) (nir red : Mat h w), nir = red →
      ∀ (i : Fin h) (j : Fin w), compute_ndvi nir red i j = 0) ∧
    (∀ (h w : ℕ) (σ : ℚ) (m : Mat h w), 0 ≤ σ → σ ^ 2 = nanvariance m →
      σ < 1e-9 → compute_zscore_anomaly σ m = fun _ _ => 0) ∧
    (∀ (h w : ℕ) (σ : ℚ) (c : ℚ) (m : Mat h w), 0 ≤ σ → σ ^ 2 = nanvariance m →
      (∀ i j, m i j = c) → compute_zscore_anomaly σ m = fun _ _ => 0) := by
  refine ⟨?_, ?_, ?_, ?_⟩
  · intro h w a b i j hb
    rw [_safe_divide, safe_div_val, if_neg (not_lt.mpr (le_of_lt hb))]
  · intro h w nir red heq i j
    subst heq
    rw [compute_ndvi, _safe_divide, safe_div_val]
    split_ifs with hd
    · rw [sub_self, zero_div]
    · rfl
  · intro h w σ m hσ0 hσvar hσsmall
    rw [compute_zscore_anomaly, if_pos hσsmall]
  · intro h w σ c m hσ0 hσvar hconst
    have hv : nanvariance m = 0 := nanvariance_const hconst
    have hσ : σ = 0 := by
      have h2 : σ ^ 2 = 0 := by rw [hσvar, hv]
      exact pow_eq_zero_iff (by norm_num) |>.mp h2
    rw [compute_zscore_anomaly, if_pos (by rw [hσ]; norm_num)]

/-- Witness for C7 on concrete 1×1 arrays: denominator 0 yields 0; a band
with `NIR == RED` yields ndvi 0; a constant map (σ = 0, its exact standard
deviation) yields the all-zero z-score map. -/
theorem safe_divide_and_zscore_total_witness :
    _safe_divide (fun _ _ => 5 : Mat 1 1) (fun _ _ => 0) 0 0 = 0 ∧
    compute_ndvi (fun _ _ => 0.4 : Mat 1 1) (fun _ _ => 0.4) 0 0 = 0 ∧
    compute_zscore_anomaly 0 (fun _ _ => 7 : Mat 1 1) = fun _ _ => 0 :=
  ⟨safe_divide_and_zscore_total.1 1 1 _ _ 0 0 (by norm_num),
   safe_divide_and_zscore_total.2.1 1 1 _ _ rfl 0 0,
   safe_divide_and_zscore_total.2.2.2 1 1 0 7 _ le_rfl
     (by rw [nanvariance_const (c := 7) (fun _ _ => rfl)]; norm_num)
     (fun _ _ => rfl)⟩

/-! ## C8 — the feature stack layout (`spectral.build_feature_stack`) -/

/-- **C8.** On a valid six-band `(h, w)` input, `build_feature_stack`
returns the flat `(h*w, 6)` feature matrix whose row `i*w + j` (pixel
`(i, j)`) has, in this exact order, the columns
`[ndvi, ndre, msi, zscore_ndvi, nir, swir]`, together with the shape
`(h, w)` and the mapping holding exactly the four index maps
`ndvi, ndre, msi, zscore_ndvi` (each the single value produced by the
corresponding index function). -/
theorem build_feature_stack_spec (h w : ℕ) (σ : ℚ) (bands : Bands h w)
    (i : Fin h) (j : Fin w) :
    ((build_feature_stack σ bands).1 ⟨i.val * w + j.val, pixel_lt i j⟩ 0
      = compute_ndvi bands.nir bands.red i j) ∧
    ((build_feature_stack σ bands).1 ⟨i.val * w + j.val, pixel_lt i j⟩ 1
      = compute_ndre bands.nir bands.red_edge i j) ∧
    ((build_feature_stack σ bands).1 ⟨i.val * w + j.val, pixel_lt i j⟩ 2
      = compute_msi bands.swir bands.nir i j) ∧
    ((build_feature_stack σ bands).1 ⟨i.val * w + j.val, pixel_lt i j⟩ 3
      = compute_zscore_anomaly σ (compute_ndvi bands.nir bands.red) i j) ∧
    ((build_feature_stack σ bands).1 ⟨i.val * w + j.val, pixel_lt i j⟩ 4
      = bands.nir i j) ∧
    ((build_feature_stack σ bands).1 ⟨i.val * w + j.val, pixel_lt i j⟩ 5
      = bands.swir i j) ∧
    ((build_feature_stack σ bands).2.1 = (h, w)) ∧
    ((build_feature_stack σ bands).2.2.ndvi = compute_ndvi bands.nir bands.red) ∧
    ((build_feature_stack σ bands).2.2.ndre = compute_ndre bands.nir bands.red_edge) ∧
    ((build_feature_stack σ bands).2.2.msi = compute_msi bands.swir bands.nir) ∧
    ((build_feature_stack σ bands).2.2.zscore_ndvi
      = compute_zscore_anomaly σ (compute_ndvi bands.nir bands.red)) := by
  refine ⟨?_, ?_, ?_, ?_, ?_, ?_, rfl, rfl, rfl, rfl, rfl⟩
  · show ravel (compute_ndvi bands.nir bands.red) ⟨_, pixel_lt i j⟩ = _
    exact ravel_at _ i j _
  · show ravel (compute_ndre bands.nir bands.red_edge) ⟨_, pixel_lt i j⟩ = _
    exact ravel_at _ i j _
  · show ravel (compute_msi bands.swir bands.nir) ⟨_, pixel_lt i j⟩ = _
    exact ravel_at _ i j _
  · show ravel (compute_zscore_anomaly σ (compute_ndvi bands.nir bands.red))
      ⟨_, pixel_lt i j⟩ = _
    exact ravel_at _ i j _
  · show ravel bands.nir ⟨_, pixel_lt i j⟩ = _
    exact ravel_at _ i j _
  · show ravel bands.swir ⟨_, pixel_lt i j⟩ = _
    exact ravel_at _ i j _

/-! ## C2 — multiclass stress aggregation (`inference.predict_stress`) -/

/-- **C2.** The per-pixel stress probability computed by
`inference.predict_stress` (lines 64–68) is the probability mass of all
non-healthy classes: for every `(n, c)` probability matrix with `c ≥ 2`,
the aggregated value equals `∑_{k ≠ 0} proba[p, k]` — column 1 when
`c = 2`, the sum of columns `1..c-1` when `c > 2` (not the maximum, not
the first nonzero class); and per-pixel class probabilities
`[0.5, 0.3, 0.2]` over classes 0, 1, 2 aggregate to stress probability
`0.3 + 0.2 = 0.5`. -/
theorem stress_prob_aggregation :
    (∀ (n c : ℕ) (hc : 2 ≤ c) (proba : Fin n → Fin c → ℚ) (p : Fin n),
      stress_prob_of hc proba p
        = ∑ k : Fin c, if k.val = 0 then 0 else proba p k) ∧
    (∀ proba : Fin 1 → Fin 3 → ℚ,
      proba 0 0 = 0.5 → proba 0 1 = 0.3 → proba 0 2 = 0.2 →
      stress_prob_of (by norm_num) proba 0 = 0.5) := by
  constructor
  · intro n c hc proba p
    by_cases h2 : c = 2
    · subst h2
      have hL : stress_prob_of hc proba p = proba p 1 := rfl
      rw [hL, Fin.sum_univ_two]
      norm_num
    · obtain ⟨m, rfl⟩ : ∃ m, c = m + 1 := ⟨c - 1, by omega⟩
      have hL : stress_prob_of hc proba p
          = ∑ k : Fin m, proba p ⟨k.val + 1, by omega⟩ := by
        rw [stress_prob_of, if_neg h2]
        rfl
      rw [hL, Fin.sum_univ_succ]
      simp only [Fin.val_zero, Fin.val_succ, Nat.succ_ne_zero, ite_true, ite_false,
        eq_self_iff_true, if_false, if_true, zero_add]
      exact Finset.sum_congr rfl fun k _ => rfl
  · intro proba h0 h1 h2
    have hL : stress_prob_of (by norm_num) proba 0
        = proba 0 ⟨0 + 1, by omega⟩ + proba 0 ⟨1 + 1, by omega⟩ := by
      rw [stress_prob_of, if_neg (by norm_num)]
      exact Fin.sum_univ_two _
    rw [hL]
    have e1 : proba 0 ⟨0 + 1, by omega⟩ = proba 0 1 := rfl
    have e2 : proba 0 ⟨1 + 1, by omega⟩ = proba 0 2 := rfl
    rw [e1, e2, h1, h2]
    norm_num

/-- Witness for C2: the spec's concrete probability row `[0.5, 0.3, 0.2]`. -/
theorem stress_prob_aggregation_witness :
    stress_prob_of (by norm_num)
      ((fun _ => ![0.5, 0.3, 0.2]) : Fin 1 → Fin 3 → ℚ) 0 = 0.5 :=
  stress_prob_aggregation.2 (fun _ => ![0.5, 0.3, 0.2]) rfl rfl rfl

/-! ## C3 — clamping and reshape (`inference.predict_stress`) -/

/-- **C3.** For every feature matrix of `h*w` rows and every raw classifier
output (values outside `[0,1]` included), the stress map of
`inference.predict_stress` at pixel `(i, j)` is exactly the clamp to
`[0, 1]` of the aggregated stress probability of flattened row `i*w + j`,
hence every output pixel lies in `[0, 1]`; and the flatten/reshape pair
preserves pixel order and values exactly (round-trip identities in both
directions). -/
theorem predict_stress_spec :
    (∀ (h w c : ℕ) (hc : 2 ≤ c)
      (predict_proba : (Fin (h * w) → Fin 6 → ℚ) → Fin (h * w) → Fin c → ℚ)
      (features : Fin (h * w) → Fin 6 → ℚ) (i : Fin h) (j : Fin w),
      predict_stress hc predict_proba features i j
        = clip (stress_prob_of hc (predict_proba features)
            ⟨i.val * w + j.val, pixel_lt i j⟩) 0 1) ∧
    (∀ (h w c : ℕ) (hc : 2 ≤ c)
      (predict_proba : (Fin (h * w) → Fin 6 → ℚ) → Fin (h * w) → Fin c → ℚ)
      (features : Fin (h * w) → Fin 6 → ℚ) (i : Fin h) (j : Fin w),
      0 ≤ predict_stress hc predict_proba features i j ∧
      predict_stress hc predict_proba features i j ≤ 1) ∧
    (∀ (h w : ℕ) (v : Fin (h * w) → ℚ), ravel (reshape v) = v) ∧
    (∀ (h w : ℕ) (m : Mat h w), reshape (ravel m) = m) := by
  refine ⟨?_, ?_, fun h w v => ravel_reshape v, fun h w m => reshape_ravel m⟩
  · intro h w c hc pp f i j
    rfl
  · intro h w c hc pp f i j
    exact ⟨le_min (le_max_right _ _) (by norm_num), min_le_right _ _⟩

/-- Witness for C3: a 1×1 two-class classifier that returns the raw
probability `1.02` still yields a stress pixel inside `[0, 1]`. -/
theorem predict_stress_spec_witness :
    0 ≤ predict_stress (h := 1) (w := 1) (by norm_num)
      ((fun _ _ _ => 1.02) : (Fin (1 * 1) → Fin 6 → ℚ) → Fin (1 * 1) → Fin 2 → ℚ)
      (fun _ _ => 0) 0 0 ∧
    predict_stress (h := 1) (w := 1) (by norm_num)
      ((fun _ _ _ => 1.02) : (Fin (1 * 1) → Fin 6 → ℚ) → Fin (1 * 1) → Fin 2 → ℚ)
      (fun _ _ => 0) 0 0 ≤ 1 :=
  predict_stress_spec.2.1 1 1 2 (by norm_num)
    ((fun _ _ _ => 1.02) : (Fin (1 * 1) → Fin 6 → ℚ) → Fin (1 * 1) → Fin 2 → ℚ)
    (fun _ _ => 0) 0 0

/-! ## C9 — heuristic fallback of `main.predict_stress_map` -/

/-- **C9.** With no loaded artifact (`model is None`),
`main.predict_stress_map` returns, at every pixel `(i, j)`, exactly
`clip(1 - NDVI[i, j], 0, 1)`; every output pixel therefore lies in
`[0, 1]`; and the output depends on the NDVI map alone — changing any of
the seven other band/index arguments leaves the fallback output unchanged. -/
theorem predict_stress_map_fallback_spec :
    (∀ (h w : ℕ) (NDVI NDRE MSI z_score NIR Red RedEdge SWIR : Mat h w)
      (i : Fin h) (j : Fin w),
      predict_stress_map NDVI NDRE MSI z_score NIR Red RedEdge SWIR none i j
        = clip (1 - NDVI i j) 0 1) ∧
    (∀ (h w : ℕ) (NDVI NDRE MSI z_score NIR Red RedEdge SWIR : Mat h w)
      (i : Fin h) (j : Fin w),
      0 ≤ predict_stress_map NDVI NDRE MSI z_score NIR Red RedEdge SWIR none i j ∧
      predict_stress_map NDVI NDRE MSI z_score NIR Red RedEdge SWIR none i j ≤ 1) ∧
    (∀ (h w : ℕ) (NDVI A1 A2 A3 A4 A5 A6 A7 B1 B2 B3 B4 B5 B6 B7 : Mat h w),
      predict_stress_map NDVI A1 A2 A3 A4 A5 A6 A7 none
        = predict_stress_map NDVI B1 B2 B3 B4 B5 B6 B7 none) := by
  refine ⟨?_, ?_, ?_⟩
  · intro h w NDVI NDRE MSI z_score NIR Red RedEdge SWIR i j
    show clip (1 - ravel NDVI ⟨i.val * w + j.val, pixel_lt i j⟩) 0 1 = _
    rw [ravel_at NDVI i j (pixel_lt i j)]
  · intro h w NDVI NDRE MSI z_score NIR Red RedEdge SWIR i j
    exact ⟨le_min (le_max_right _ _) (by norm_num), min_le_right _ _⟩
  · intro h w NDVI A1 A2 A3 A4 A5 A6 A7 B1 B2 B3 B4 B5 B6 B7
    rfl

/-! ## C1 — `build_feature_stack` input validation (dynamic semantics) -/

/-- **C1 counterexample.** A bands dict missing the required keys `blue`
and `green` (but with all four actually-read bands present, same shape
`(1, 2)`) is invalid input, yet `build_feature_stack` raises nothing and
returns a fully computed feature matrix: the source never reads `blue` or
`green` and contains no validation step. (`σ = 0` is the exact standard
deviation of the constant ndvi map `[[1/2, 1/2]]`.) -/
theorem build_feature_stack_accepts_missing_blue :
    PyDyn.build_feature_stack 0
      ⟨none, none, some ⟨[[1, 1]]⟩, some ⟨[[1, 1]]⟩, some ⟨[[3, 3]]⟩,
       some ⟨[[2, 2]]⟩⟩
      = .ok ([[1/2, 1/2, 2/3, 0, 3, 2], [1/2, 1/2, 2/3, 0, 3, 2]], (1, 2),
          ⟨⟨[[1/2, 1/2]]⟩, ⟨[[1/2, 1/2]]⟩, ⟨[[2/3, 2/3]]⟩, ⟨[[0, 0]]⟩⟩) := by
  with_unfolding_all rfl

/-- **C1 (amended).** `build_feature_stack` performs no input validation
and never raises a dedicated validation error. It reads only the four
keys `nir`, `red`, `red_edge`, `swir`, in that order: if one of those
four is absent the function fails with a `KeyError` for that key (a
dictionary lookup error raised on access), while absent `blue`/`green`
keys go entirely unnoticed. Band shapes are never compared; failures,
when they come at all, come from the numeric computation itself, and
which shape mismatches fail depends on where the band is used: a `red`
band of differing but broadcast-compatible shape enters only the
(broadcasting) ndvi computation and is silently accepted — a full
feature matrix is returned (fifth conjunct: `red` of shape `(1, 2)`
against `(2, 2)` bands yields the complete `(4, 6)` matrix) — whereas a
`swir` band of the same differing-but-broadcast-compatible shape, whose
raw pixels also feed a feature column, survives the index computations
but fails at the final `np.stack` with a `ValueError` (sixth conjunct),
again never a validation error detected before numeric work. -/
theorem build_feature_stack_dynamic_spec :
    (∀ (σ : ℚ) (bands : PyDyn.Bands), bands.nir = none →
      PyDyn.build_feature_stack σ bands = .error (.keyError "nir")) ∧
    (∀ (σ : ℚ) (bands : PyDyn.Bands) (a : PyDyn.Arr),
      bands.nir = some a → bands.red = none →
      PyDyn.build_feature_stack σ bands = .error (.keyError "red")) ∧
    (∀ (σ : ℚ) (bands : PyDyn.Bands) (a b : PyDyn.Arr),
      bands.nir = some a → bands.red = some b → bands.red_edge = none →
      PyDyn.build_feature_stack σ bands = .error (.keyError "red_edge")) ∧
    (∀ (σ : ℚ) (bands : PyDyn.Bands) (a b c : PyDyn.Arr),
      bands.nir = some a → bands.red = some b → bands.red_edge = some c →
      bands.swir = none →
      PyDyn.build_feature_stack σ bands = .error (.keyError "swir")) ∧
    (PyDyn.build_feature_stack 0
      ⟨some ⟨[[0, 0], [0, 0]]⟩, some ⟨[[0, 0], [0, 0]]⟩, some ⟨[[1, 1]]⟩,
       some ⟨[[1, 1], [1, 1]]⟩, some ⟨[[3, 3], [3, 3]]⟩,
       some ⟨[[2, 2], [2, 2]]⟩⟩
      = .ok ([[1/2, 1/2, 2/3, 0, 3, 2], [1/2, 1/2, 2/3, 0, 3, 2],
              [1/2, 1/2, 2/3, 0, 3, 2], [1/2, 1/2, 2/3, 0, 3, 2]], (2, 2),
          ⟨⟨[[1/2, 1/2], [1/2, 1/2]]⟩, ⟨[[1/2, 1/2], [1/2, 1/2]]⟩,
           ⟨[[2/3, 2/3], [2/3, 2/3]]⟩, ⟨[[0, 0], [0, 0]]⟩⟩)) ∧
    (PyDyn.build_feature_stack 0
      ⟨some ⟨[[0, 0], [0, 0]]⟩, some ⟨[[0, 0], [0, 0]]⟩,
       some ⟨[[1, 1], [1, 1]]⟩, some ⟨[[1, 1], [1, 1]]⟩,
       some ⟨[[3, 3], [3, 3]]⟩, some ⟨[[2, 2]]⟩⟩
      = .error (.valueError "all input arrays must have the same shape")) := by
  refine ⟨?_, ?_, ?_, ?_, ?_, ?_⟩
  · intro σ bands hnir
    rw [PyDyn.build_feature_stack, hnir]
    rfl
  · intro σ bands a hnir hred
    rw [PyDyn.build_feature_stack, hnir, hred]
    rfl
  · intro σ bands a b hnir hred hre
    rw [PyDyn.build_feature_stack, hnir, hred, hre]
    rfl
  · intro σ bands a b c hnir hred hre hswir
    rw [PyDyn.build_feature_stack, hnir, hred, hre, hswir]
    rfl
  · with_unfolding_all rfl
  · with_unfolding_all rfl

/-- Witness for C1 (amended): an all-empty bands dict fails on the first
key the source reads, `nir`. -/
theorem build_feature_stack_dynamic_spec_witness :
    PyDyn.build_feature_stack 0 ⟨none, none, none, none, none, none⟩
      = .error (.keyError "nir") :=
  build_feature_stack_dynamic_spec.1 0 ⟨none, none, none, none, none, none⟩ rfl
